import Mathlib

/-!
# Verification of `darwin/dataset/remote_dataset_v2.py`

A shallow embedding of the remote-dataset client: filter/sort
normalization and cursor pagination in `fetch_remote_files`, the five
batch-command dispatchers (`archive`, `restore_archived`, `move_to_new`,
`reset`, `delete_items`), the `push` validation and folder-preservation
logic, and `workview_url_for_item`.

Python dictionaries are embedded as association lists
(`List (String × α)`) with Python's semantics: assignment to a present
key replaces the value in place, assignment to an absent key appends,
and lookup returns the (unique) binding for a key.
-/

namespace Darwin

/-- A value in a Python `Dict[str, Union[str, List[str]]]` filter mapping. -/
inductive FilterValue : Type
  | str (s : String)
  | list (l : List String)
deriving DecidableEq, Repr

/-- A value in the pagination cursor / query-parameter dictionaries
(strings, integers such as the page size, or string lists coming from
the normalized filters). -/
inductive PyVal : Type
  | str (s : String)
  | int (n : Nat)
  | list (l : List String)
deriving DecidableEq, Repr

/-- Injection of filter values into general query-parameter values. -/
def FilterValue.toPy : FilterValue → PyVal
  | .str s => .str s
  | .list l => .list l

/-- Python's `str()` applied to a list of strings (its `repr`). -/
def pyStrOfList (l : List String) : String :=
  "[" ++ String.intercalate ", " (l.map (fun s => "'" ++ s ++ "'")) ++ "]"

/-- Python's `str()` applied to a filter value. -/
def FilterValue.pyStr : FilterValue → String
  | .str s => s
  | .list l => pyStrOfList l

/-- A Python dict embedded as an association list. -/
abbrev PyDict (α : Type) := List (String × α)

/-- Dict lookup `d[k]` / `k in d`: the binding for `k` (for duplicate
keys, which a real Python dict never has, the last binding wins,
matching the value a sequence of assignments would leave). -/
def dictGet {α : Type} : PyDict α → String → Option α
  | [], _ => none
  | p :: rest, k =>
    match dictGet rest k with
    | some v => some v
    | none => if p.1 = k then some p.2 else none

/-- Dict assignment `d[k] = v`: replaces the value at a present key in
place (keeping insertion order), appends a new binding otherwise. -/
def dictSet {α : Type} (d : PyDict α) (k : String) (v : α) : PyDict α :=
  if ∃ p ∈ d, p.1 = k then
    d.map (fun p => if p.1 = k then (k, v) else p)
  else
    d ++ [(k, v)]

/-- Python's `{**a, **b}`: start from `a` and assign every binding of
`b` in order. -/
def dictMerge {α : Type} (a b : PyDict α) : PyDict α :=
  b.foldl (fun d p => dictSet d p.1 p.2) a

/-! ## Filter normalization (`fetch_remote_files`, lines 213–226)

```python
if filters:
    if "filenames" in filters:
        # compability layer with v1
        filters["item_names"] = filters["filenames"]
    for list_type in ["item_names", "statuses"]:
        if list_type in filters:
            if type(filters[list_type]) is list:
                post_filters[list_type] = filters[list_type]
            else:
                post_filters[list_type] = str(filters[list_type])
    if "path" in filters:
        post_filters["path"] = str(filters["path"])
    if "types" in filters:
        post_filters["types"] = str(filters["types"])
```
-/

/-- A user-supplied filter mapping (`filters` argument). A `None`
argument behaves like the empty mapping (both are falsy in Python). -/
abbrev Filters := PyDict FilterValue

/-- The branch body of the `for list_type in [...]` loop: a list value
passes through verbatim, anything else is stringified. -/
def coerceVal : FilterValue → FilterValue
  | .list l => .list l
  | v => .str v.pyStr

/-- One iteration of the `for list_type in ["item_names", "statuses"]`
loop over key `k`: copy `filters[k]` into `post`, lists verbatim and
scalars stringified. -/
def coerceListKey (post filters : Filters) (k : String) : Filters :=
  match dictGet filters k with
  | none => post
  | some v => dictSet post k (coerceVal v)

/-- The `path`/`types` steps: copy `filters[k]` into `post`, always
stringified. -/
def coerceStrKey (post filters : Filters) (k : String) : Filters :=
  match dictGet filters k with
  | none => post
  | some v => dictSet post k (FilterValue.str v.pyStr)

/-- The v1 compatibility layer: `filters["item_names"] =
filters["filenames"]` when `"filenames" in filters`. This mutates the
caller's mapping in the source. -/
def aliasFilenames (filters : Filters) : Filters :=
  match dictGet filters "filenames" with
  | some v => dictSet filters "item_names" v
  | none => filters

/-- The `post_filters` dictionary built by the four copy steps. -/
def buildPostFilters (filters : Filters) : Filters :=
  coerceStrKey
    (coerceStrKey
      (coerceListKey (coerceListKey [] filters "item_names") filters "statuses")
      filters "path")
    filters "types"

/-- Lines 213–226 as a whole: given the caller's `filters` dict,
returns the caller's dict as it is left after the call (the alias step
mutates it) together with the `post_filters` dict that is transmitted. -/
def normalizeFilters (filters : Filters) : Filters × Filters :=
  if filters.isEmpty then (filters, [])
  else
    let filters := aliasFilenames filters
    (filters, buildPostFilters filters)

/-! ## Cursor pagination (`fetch_remote_files`, lines 228–240)

```python
if sort:
    item_sorter = ItemSorter.parse(sort)
    post_sort[f"sort[{item_sorter.field}]"] = item_sorter.direction.value
cursor = {"page[size]": 500}
while True:
    cursor = {**post_filters, **post_sort, **cursor}
    response = self.client.api_v2.fetch_items(self.dataset_id, cursor, team_slug=self.team)
    yield from [DatasetItem.parse(item) for item in response["items"]]

    if response["page"]["next"]:
        cursor["page[from]"] = response["page"]["next"]
    else:
        return
```

The server is modelled as the list of page responses it returns, one
per request, in order; the generator's observable behaviour is the
trace of requests issued and item batches yielded, interleaved in the
order they happen.
-/

/-- One listing response: `{"items": [...], "page": {"next": token-or-null}}`. -/
structure Page (ι : Type) where
  items : List ι
  next : Option String
deriving DecidableEq, Repr

/-- Query-parameter dictionaries (`post_filters`/`post_sort`/`cursor`). -/
abbrev Params := PyDict PyVal

/-- One observable event of a pagination run: a listing request with
its query parameters, or a batch of items yielded to the consumer. -/
inductive FetchEvent (ι δ : Type) : Type
  | request (params : Params)
  | yieldItems (items : List δ)
deriving DecidableEq, Repr

/-- The `while True` loop of `fetch_remote_files`. `parse` models
`DatasetItem.parse` (in `darwin/item.py`, outside the examined file),
applied elementwise to each page's raw items. The trace records each
request before the items it yields, and the loop `return`s as soon as
a response's next token is null; an exhausted server list ends the
trace. -/
def fetchLoop {ι δ : Type} (parse : ι → δ) (post_filters post_sort : Params) :
    Params → List (Page ι) → List (FetchEvent ι δ)
  | _, [] => []
  | cursor, p :: rest =>
    let cursor := dictMerge (dictMerge post_filters post_sort) cursor
    FetchEvent.request cursor :: FetchEvent.yieldItems (p.items.map parse) ::
      (match p.next with
       | some tok =>
         fetchLoop parse post_filters post_sort
           (dictSet cursor "page[from]" (PyVal.str tok)) rest
       | none => [])

/-- The transmitted `post_filters`, as query parameters. -/
def postFilterParams (filters : Filters) : Params :=
  ((normalizeFilters filters).2).map (fun p => (p.1, p.2.toPy))

/-- The `post_sort` dictionary: `sortSpec` is the
`(field, direction.value)` pair produced by `ItemSorter.parse(sort)`
(in `darwin/item_sorter.py`, outside the examined file); the generator
encodes it as the single query parameter `sort[field] = direction`,
and a falsy `sort` leaves `post_sort` empty. -/
def sortParams (sortSpec : Option (String × String)) : Params :=
  match sortSpec with
  | some fd => [("sort[" ++ fd.1 ++ "]", PyVal.str fd.2)]
  | none => []

/-- `fetch_remote_files(filters, sort)` run against a server returning
`pages`. -/
def fetch_remote_files {ι δ : Type} (filters : Filters)
    (sortSpec : Option (String × String)) (parse : ι → δ)
    (pages : List (Page ι)) : List (FetchEvent ι δ) :=
  fetchLoop parse (postFilterParams filters) (sortParams sortSpec)
    [("page[size]", PyVal.int 500)] pages

/-- A complete server run: the last page declares no next token and
every earlier page declares one. -/
def wellFormedRun {ι : Type} : List (Page ι) → Bool
  | [] => false
  | [p] => p.next.isNone
  | p :: q :: rest => p.next.isSome && wellFormedRun (q :: rest)

/-- Erases request parameters, keeping the request/yield structure. -/
def eventTag {ι δ : Type} : FetchEvent ι δ → Option (List δ)
  | .request _ => none
  | .yieldItems its => some its

/-- Number of listing requests issued in a trace. -/
def requestCount {ι δ : Type} : List (FetchEvent ι δ) → Nat
  | [] => 0
  | .request _ :: rest => requestCount rest + 1
  | .yieldItems _ :: rest => requestCount rest

/-- All items yielded to the consumer, in order. -/
def yieldedItems {ι δ : Type} : List (FetchEvent ι δ) → List δ
  | [] => []
  | .request _ :: rest => yieldedItems rest
  | .yieldItems its :: rest => its ++ yieldedItems rest

/-! ## Batch commands (lines 242–304) -/

/-- Modelled from the spec: `DatasetItem` (in `darwin/item.py`, outside
the examined file) is a remote item record with an opaque numeric
identity plus display fields; the batch commands read only `item.id`. -/
structure DatasetItem where
  id : Nat
  name : String
  status : String
  path : String
deriving DecidableEq, Repr

/-- The dataset facade: the fields of `RemoteDatasetV2` used by the
examined methods (`base_url` is `client.base_url`). -/
structure RemoteDatasetV2 where
  team : String
  name : String
  slug : String
  dataset_id : Nat
  base_url : String
deriving DecidableEq, Repr

/-- JSON-shaped request payloads. -/
inductive Json : Type
  | num (n : Nat)
  | str (s : String)
  | arr (elts : List Json)
  | obj (fields : List (String × Json))
deriving Repr

/-- A request dispatched through the client, one constructor per
endpoint used by the five batch commands. -/
inductive ApiRequest : Type
  | archive_items (payload : Json) (team_slug : String)
  | restore_archived_items (payload : Json) (team_slug : String)
  | move_item_to_new (dataset_slug team_slug : String) (payload : Json)
  | reset_item (dataset_slug team_slug : String) (payload : Json)
  | delete_item (dataset_slug team_slug : String) (payload : Json)
deriving Repr

/-- `archive`: payload `{"filters": {"item_ids": [...], "dataset_ids":
[dataset_id]}}`, one call to `client.api_v2.archive_items`. -/
def archive (ds : RemoteDatasetV2) (items : List DatasetItem) : List ApiRequest :=
  let payload : Json := .obj [("filters", .obj
    [("item_ids", .arr (items.map (fun item => Json.num item.id))),
     ("dataset_ids", .arr [Json.num ds.dataset_id])])]
  [ApiRequest.archive_items payload ds.team]

/-- `restore_archived`: same payload shape as `archive`, one call to
`client.api_v2.restore_archived_items`. -/
def restore_archived (ds : RemoteDatasetV2) (items : List DatasetItem) :
    List ApiRequest :=
  let payload : Json := .obj [("filters", .obj
    [("item_ids", .arr (items.map (fun item => Json.num item.id))),
     ("dataset_ids", .arr [Json.num ds.dataset_id])])]
  [ApiRequest.restore_archived_items payload ds.team]

/-- `move_to_new`: payload `{"filter": {"dataset_item_ids": [...]}}`,
one call to `client.move_item_to_new`. -/
def move_to_new (ds : RemoteDatasetV2) (items : List DatasetItem) :
    List ApiRequest :=
  let payload : Json := .obj [("filter", .obj
    [("dataset_item_ids", .arr (items.map (fun item => Json.num item.id)))])]
  [ApiRequest.move_item_to_new ds.slug ds.team payload]

/-- `reset`: payload `{"filter": {"dataset_item_ids": [...]}}`, one
call to `client.reset_item`. -/
def reset (ds : RemoteDatasetV2) (items : List DatasetItem) : List ApiRequest :=
  let payload : Json := .obj [("filter", .obj
    [("dataset_item_ids", .arr (items.map (fun item => Json.num item.id)))])]
  [ApiRequest.reset_item ds.slug ds.team payload]

/-- `delete_items`: payload `{"filter": {"dataset_item_ids": [...]}}`,
one call to `client.delete_item`. -/
def delete_items (ds : RemoteDatasetV2) (items : List DatasetItem) :
    List ApiRequest :=
  let payload : Json := .obj [("filter", .obj
    [("dataset_item_ids", .arr (items.map (fun item => Json.num item.id)))])]
  [ApiRequest.delete_item ds.slug ds.team payload]

/-! ## `push` (lines 101–189) -/

/-- A filesystem path, as its list of components. -/
abbrev PyPath := List String

/-- Modelled from the spec: `is_relative_to` (in
`darwin/dataset/utils.py`, outside the examined file) — whether a file
path lies under a scan root. -/
def is_relative_to (found_file source_file : PyPath) : Bool :=
  source_file.isPrefixOf found_file

/-- `pathlib.Path.relative_to`: strip the root's components. -/
def pyRelativeTo (found_file source_file : PyPath) : PyPath :=
  found_file.drop source_file.length

/-- `str()` of a `pathlib` path; the empty relative path prints as
`"."` (as `Path(...).parent` does at the top). -/
def pyPathStr (l : PyPath) : String :=
  if l.isEmpty then "." else String.intercalate "/" l

/-- A `LocalFile` as constructed by `push`: the local path plus the
per-file upload options (`fps`, `as_frames`, destination `path`). -/
structure LocalFile where
  data : PyPath
  fps : Int
  as_frames : Bool
  path : Option String
deriving DecidableEq, Repr

/-- An element of `files_to_upload`: either a pre-built `LocalFile` or
a path-like entry to be expanded by the filesystem scan. -/
inductive PushItem : Type
  | localFile (lf : LocalFile)
  | pathLike (p : PyPath)
deriving DecidableEq, Repr

/-- The observable result of `push`: a raised `ValueError`, a blocking
upload handed to the handler, or a prepared (non-blocking) handler.
Requests are only attempted in the latter two outcomes. -/
inductive PushOutcome : Type
  | error (msg : String)
  | upload (files : List LocalFile) (multi_threaded : Bool)
  | prepared (files : List LocalFile)
deriving DecidableEq, Repr

/-- `[item for item in files_to_upload if isinstance(item, LocalFile)]`. -/
def localFiles (l : List PushItem) : List LocalFile :=
  l.filterMap fun i => match i with
    | .localFile lf => some lf
    | .pathLike _ => none

/-- `[item for item in files_to_upload if not isinstance(item, LocalFile)]`. -/
def searchFiles (l : List PushItem) : List PyPath :=
  l.filterMap fun i => match i with
    | .localFile _ => none
    | .pathLike p => some p

/-- The per-file destination path of the scan loop (lines 169–173):
starts from the global `path` option; with `preserve_folders`, if any
scan root contains the file, it becomes the parent directory of the
file's path relative to the first such root. -/
def destPath (path : Option String) (preserve_folders : Bool)
    (search_files : List PyPath) (found_file : PyPath) : Option String :=
  if preserve_folders then
    match search_files.filter (fun s => is_relative_to found_file s) with
    | [] => path
    | s :: _ => some (pyPathStr (pyRelativeTo found_file s).dropLast)
  else path

/-- The scan loop (lines 168–174): appends a `LocalFile` for every
found file to the pre-built ones. -/
def buildUploadFiles (uploading : List LocalFile) (search_files : List PyPath)
    (found : List PyPath) (fps : Int) (as_frames : Bool) (path : Option String)
    (preserve_folders : Bool) : List LocalFile :=
  uploading ++ found.map (fun f =>
    { data := f, fps := fps, as_frames := as_frames,
      path := destPath path preserve_folders search_files f })

/-- `push`. `find_files` models the filesystem scanner (an external
collaborator per the spec): it maps the path-like entries and the
exclusion list to the discovered files. -/
def push (find_files : List PyPath → List PyPath → List PyPath)
    (files_to_upload : Option (List PushItem)) (blocking multi_threaded : Bool)
    (fps : Int) (as_frames : Bool) (files_to_exclude : Option (List PyPath))
    (path : Option String) (preserve_folders : Bool) : PushOutcome :=
  let files_to_exclude := files_to_exclude.getD []
  match files_to_upload with
  | none => .error "No files or directory specified."
  | some files_to_upload =>
    let uploading_files := localFiles files_to_upload
    let search_files := searchFiles files_to_upload
    let generic_parameters_specified :=
      path.isSome || fps != 0 || as_frames
    if !uploading_files.isEmpty && generic_parameters_specified then
      .error "Cannot specify a path when uploading a LocalFile object."
    else
      let found := find_files search_files files_to_exclude
      let uploading_files :=
        buildUploadFiles uploading_files search_files found fps as_frames
          path preserve_folders
      if uploading_files.isEmpty then
        .error "No files to upload, check your path, exclusion filters and resume flag"
      else if blocking then
        .upload uploading_files multi_threaded
      else
        .prepared uploading_files

/-- Whether `push` raised a `ValueError`. -/
def PushOutcome.isError : PushOutcome → Bool
  | .error _ => true
  | .upload _ _ => false
  | .prepared _ => false

/-! ## `workview_url_for_item` (lines 357–371) -/

/-- Modelled from the spec: `urljoin` (in `darwin/utils.py`, outside
the examined file) joins the base URL with the path by concatenation
(the URL is "built by joining a base URL with a fixed query template",
composing `base_url + "/workview?dataset=<id>&item=<item_id>"`). -/
def urljoin (base url_path : String) : String := base ++ url_path

/-- `workview_url_for_item`. -/
def workview_url_for_item (ds : RemoteDatasetV2) (item : DatasetItem) : String :=
  urljoin ds.base_url
    ("/workview?dataset=" ++ toString ds.dataset_id ++ "&item=" ++ toString item.id)

/-! ## Dict lemmas -/

theorem dictGet_eq_none {α : Type} {d : PyDict α} {k : String}
    (h : ∀ p ∈ d, p.1 ≠ k) : dictGet d k = none := by
  induction d with
  | nil => rfl
  | cons p rest ih =>
    have hrest : dictGet rest k = none := ih (fun q hq => h q (List.mem_cons_of_mem p hq))
    simp [dictGet, hrest, h p (List.mem_cons_self ..)]

theorem map_set_id_of_absent {α : Type} {d : PyDict α} {k : String} (v : α)
    (h : ∀ p ∈ d, p.1 ≠ k) :
    d.map (fun p => if p.1 = k then (k, v) else p) = d := by
  induction d with
  | nil => rfl
  | cons p rest ih =>
    simp only [List.map_cons, if_neg (h p (List.mem_cons_self ..)),
      ih (fun q hq => h q (List.mem_cons_of_mem p hq))]

theorem dictGet_append_single_self {α : Type} (d : PyDict α) (k : String) (v : α) :
    dictGet (d ++ [(k, v)]) k = some v := by
  induction d with
  | nil => simp [dictGet]
  | cons p rest ih => simp [dictGet, ih]

theorem dictGet_append_single_ne {α : Type} (d : PyDict α) {k k' : String} (v : α)
    (h : k' ≠ k) : dictGet (d ++ [(k, v)]) k' = dictGet d k' := by
  induction d with
  | nil =>
    have hkk : ¬(k = k') := fun hk => h hk.symm
    simp [dictGet, hkk]
  | cons p rest ih => simp [dictGet, ih]

theorem dictGet_map_set_self {α : Type} {d : PyDict α} {k : String} (v : α)
    (h : ∃ p ∈ d, p.1 = k) :
    dictGet (d.map (fun p => if p.1 = k then (k, v) else p)) k = some v := by
  induction d with
  | nil => simp at h
  | cons p rest ih =>
    by_cases hrest : ∃ q ∈ rest, q.1 = k
    · simp [dictGet, ih hrest]
    · push_neg at hrest
      have hp : p.1 = k := by
        rcases h with ⟨q, hq, hqk⟩
        rcases List.mem_cons.mp hq with rfl | hq'
        · exact hqk
        · exact absurd hqk (hrest q hq')
      rw [List.map_cons, map_set_id_of_absent v hrest]
      simp [dictGet, dictGet_eq_none hrest, hp]

theorem dictGet_map_set_ne {α : Type} {d : PyDict α} {k k' : String} (v : α)
    (h : k' ≠ k) :
    dictGet (d.map (fun p => if p.1 = k then (k, v) else p)) k' = dictGet d k' := by
  induction d with
  | nil => rfl
  | cons p rest ih =>
    rw [List.map_cons, dictGet, dictGet, ih]
    cases hx : dictGet rest k' with
    | some v' => rfl
    | none =>
      by_cases hp : p.1 = k
      · have hkk : ¬(k = k') := fun hk => h hk.symm
        simp [hp, hkk]
      · simp [hp]

/-- After `d[k] = v`, looking up `k` yields `v`. -/
theorem dictGet_set_self {α : Type} (d : PyDict α) (k : String) (v : α) :
    dictGet (dictSet d k v) k = some v := by
  unfold dictSet
  by_cases h : ∃ p ∈ d, p.1 = k
  · simp only [h, if_true]
    exact dictGet_map_set_self v h
  · simp only [h, if_false]
    exact dictGet_append_single_self d k v

/-- `d[k] = v` does not change lookups at other keys. -/
theorem dictGet_set_ne {α : Type} (d : PyDict α) {k k' : String} (v : α)
    (h : k' ≠ k) : dictGet (dictSet d k v) k' = dictGet d k' := by
  unfold dictSet
  by_cases hx : ∃ p ∈ d, p.1 = k
  · simp only [hx, if_true]
    exact dictGet_map_set_ne v h
  · simp only [hx, if_false]
    exact dictGet_append_single_ne d v h

theorem dictGet_cons_none {α : Type} {p : String × α} {rest : PyDict α} {k : String}
    (h : dictGet (p :: rest) k = none) : dictGet rest k = none ∧ p.1 ≠ k := by
  rw [dictGet] at h
  cases hx : dictGet rest k with
  | some v => rw [hx] at h; exact absurd h (by simp)
  | none =>
    rw [hx] at h
    refine ⟨rfl, ?_⟩
    intro hp
    rw [if_pos hp] at h
    exact absurd h (by simp)

/-- Merging `b` over `a` leaves lookups of keys absent from `b` alone. -/
theorem dictGet_merge_of_none {α : Type} {b : PyDict α} {k : String}
    (hb : dictGet b k = none) (a : PyDict α) :
    dictGet (dictMerge a b) k = dictGet a k := by
  induction b generalizing a with
  | nil => rfl
  | cons p rest ih =>
    obtain ⟨hrest, hp⟩ := dictGet_cons_none hb
    have hstep : dictMerge a (p :: rest) = dictMerge (dictSet a p.1 p.2) rest := rfl
    rw [hstep, ih hrest, dictGet_set_ne]
    exact fun hk => hp hk.symm

/-- Merging `b` over `a` makes `b`'s bindings win: if `b` binds `k` to
`v`, so does the merge. -/
theorem dictGet_merge_of_some {α : Type} {b : PyDict α} {k : String} {v : α}
    (hb : dictGet b k = some v) (a : PyDict α) :
    dictGet (dictMerge a b) k = some v := by
  induction b generalizing a with
  | nil => exact absurd hb (by simp [dictGet])
  | cons p rest ih =>
    have hstep : dictMerge a (p :: rest) = dictMerge (dictSet a p.1 p.2) rest := rfl
    rw [dictGet] at hb
    cases hx : dictGet rest k with
    | some v' =>
      rw [hx] at hb
      rw [hstep]
      exact ih (by rw [hx]; exact hb) _
    | none =>
      rw [hx] at hb
      by_cases hp : p.1 = k
      · rw [if_pos hp] at hb
        rw [hstep, dictGet_merge_of_none hx, ← hp]
        have : p.2 = v := by simpa using hb
        rw [← this]
        exact dictGet_set_self a p.1 p.2
      · rw [if_neg hp] at hb
        exact absurd hb (by simp)

/-! ## Normalization lemmas -/

theorem coerceVal_id : ∀ v : FilterValue, coerceVal v = v := by
  intro v; cases v <;> rfl

theorem isEmpty_false_of_get {α : Type} {d : PyDict α} {k : String} {v : α}
    (h : dictGet d k = some v) : d.isEmpty = false := by
  cases d with
  | nil => exact absurd h (by simp [dictGet])
  | cons p rest => rfl

theorem coerceListKey_get_ne (post f : Filters) {k k' : String} (h : k ≠ k') :
    dictGet (coerceListKey post f k') k = dictGet post k := by
  unfold coerceListKey
  cases dictGet f k' with
  | none => rfl
  | some v => exact dictGet_set_ne post _ h

theorem coerceListKey_get_self (post f : Filters) (k : String) :
    dictGet (coerceListKey post f k) k = match dictGet f k with
      | none => dictGet post k
      | some v => some (coerceVal v) := by
  unfold coerceListKey
  cases dictGet f k with
  | none => rfl
  | some v => exact dictGet_set_self post k (coerceVal v)

theorem coerceStrKey_get_ne (post f : Filters) {k k' : String} (h : k ≠ k') :
    dictGet (coerceStrKey post f k') k = dictGet post k := by
  unfold coerceStrKey
  cases dictGet f k' with
  | none => rfl
  | some v => exact dictGet_set_ne post _ h

theorem coerceStrKey_get_self (post f : Filters) (k : String) :
    dictGet (coerceStrKey post f k) k = match dictGet f k with
      | none => dictGet post k
      | some v => some (FilterValue.str v.pyStr) := by
  unfold coerceStrKey
  cases dictGet f k with
  | none => rfl
  | some v => exact dictGet_set_self post k (FilterValue.str v.pyStr)

theorem buildPostFilters_item_names (f : Filters) :
    dictGet (buildPostFilters f) "item_names"
      = (dictGet f "item_names").map coerceVal := by
  unfold buildPostFilters
  rw [coerceStrKey_get_ne _ _ (by decide), coerceStrKey_get_ne _ _ (by decide),
    coerceListKey_get_ne _ _ (by decide), coerceListKey_get_self]
  cases dictGet f "item_names" <;> rfl

theorem buildPostFilters_statuses (f : Filters) :
    dictGet (buildPostFilters f) "statuses"
      = (dictGet f "statuses").map coerceVal := by
  unfold buildPostFilters
  rw [coerceStrKey_get_ne _ _ (by decide), coerceStrKey_get_ne _ _ (by decide),
    coerceListKey_get_self]
  cases dictGet f "statuses" with
  | none => rw [coerceListKey_get_ne _ _ (by decide)]; rfl
  | some v => rfl

theorem buildPostFilters_path (f : Filters) :
    dictGet (buildPostFilters f) "path"
      = (dictGet f "path").map (fun v => FilterValue.str v.pyStr) := by
  unfold buildPostFilters
  rw [coerceStrKey_get_ne _ _ (by decide), coerceStrKey_get_self]
  cases dictGet f "path" with
  | none =>
    rw [coerceListKey_get_ne _ _ (by decide), coerceListKey_get_ne _ _ (by decide)]
    rfl
  | some v => rfl

theorem buildPostFilters_types (f : Filters) :
    dictGet (buildPostFilters f) "types"
      = (dictGet f "types").map (fun v => FilterValue.str v.pyStr) := by
  unfold buildPostFilters
  rw [coerceStrKey_get_self]
  cases dictGet f "types" with
  | none =>
    rw [coerceStrKey_get_ne _ _ (by decide), coerceListKey_get_ne _ _ (by decide),
      coerceListKey_get_ne _ _ (by decide)]
    rfl
  | some v => rfl

theorem buildPostFilters_other (f : Filters) {k : String}
    (h1 : k ≠ "item_names") (h2 : k ≠ "statuses") (h3 : k ≠ "path")
    (h4 : k ≠ "types") : dictGet (buildPostFilters f) k = none := by
  unfold buildPostFilters
  rw [coerceStrKey_get_ne _ _ h4, coerceStrKey_get_ne _ _ h3,
    coerceListKey_get_ne _ _ h2, coerceListKey_get_ne _ _ h1]
  rfl

theorem aliasFilenames_get_ne (f : Filters) {k : String}
    (h : k ≠ "item_names") : dictGet (aliasFilenames f) k = dictGet f k := by
  unfold aliasFilenames
  cases dictGet f "filenames" with
  | none => rfl
  | some v => exact dictGet_set_ne f _ h

theorem normalizeFilters_snd {f : Filters} (h : f.isEmpty = false) :
    (normalizeFilters f).2 = buildPostFilters (aliasFilenames f) := by
  unfold normalizeFilters
  rw [h]
  rfl

/-! ## Claim C3: the `filenames` alias -/

/-- C3: for every filter mapping in which both `filenames` and
`item_names` are present, the transmitted filters have `item_names`
equal to the value supplied under `filenames` (the alias overrides the
existing `item_names` entry), and the `filenames` key itself is not
transmitted. -/
theorem filenames_alias_overrides_item_names (f : Filters) (v w : FilterValue)
    (hfn : dictGet f "filenames" = some v)
    (_hin : dictGet f "item_names" = some w) :
    dictGet (normalizeFilters f).2 "item_names" = some v ∧
    dictGet (normalizeFilters f).2 "filenames" = none := by
  have hne : f.isEmpty = false := isEmpty_false_of_get hfn
  have halias : dictGet (aliasFilenames f) "item_names" = some v := by
    unfold aliasFilenames
    rw [hfn]
    exact dictGet_set_self f "item_names" v
  constructor
  · rw [normalizeFilters_snd hne, buildPostFilters_item_names, halias]
    simp [coerceVal_id]
  · rw [normalizeFilters_snd hne]
    exact buildPostFilters_other _ (by decide) (by decide) (by decide) (by decide)

/-- Concrete instance of the alias override. -/
theorem filenames_alias_overrides_item_names_witness :
    dictGet (normalizeFilters
      [("filenames", FilterValue.str "a"), ("item_names", FilterValue.str "b")]).2
      "item_names" = some (FilterValue.str "a") ∧
    dictGet (normalizeFilters
      [("filenames", FilterValue.str "a"), ("item_names", FilterValue.str "b")]).2
      "filenames" = none :=
  filenames_alias_overrides_item_names _ (FilterValue.str "a") (FilterValue.str "b")
    (by decide) (by decide)

/-! ## Claim C4: per-key normalization -/

/-- C4 fails as stated: when the alias key `filenames` is also present,
a list-valued `item_names` entry is *not* passed through unchanged —
the alias value replaces it. -/
theorem list_item_names_not_passed_through_under_alias :
    dictGet
        [("filenames", FilterValue.str "x"), ("item_names", FilterValue.list ["a"])]
        "item_names" = some (FilterValue.list ["a"]) ∧
    dictGet (normalizeFilters
        [("filenames", FilterValue.str "x"), ("item_names", FilterValue.list ["a"])]).2
        "item_names" ≠ some (FilterValue.list ["a"]) := by
  decide

/-- C4 (amended): provided the alias key `filenames` is absent (its
value otherwise replaces `item_names` first), a list-valued
`item_names` entry is passed through unchanged and a scalar-valued one
becomes its string form; `statuses` behaves the same with no proviso;
`path` and `types` are always coerced to a single string; and every
key outside the recognized set is silently dropped. -/
theorem post_filters_normalization (f : Filters) :
    (∀ l : List String, dictGet f "filenames" = none →
      dictGet f "item_names" = some (FilterValue.list l) →
      dictGet (normalizeFilters f).2 "item_names" = some (FilterValue.list l)) ∧
    (∀ s : String, dictGet f "filenames" = none →
      dictGet f "item_names" = some (FilterValue.str s) →
      dictGet (normalizeFilters f).2 "item_names" = some (FilterValue.str s)) ∧
    (∀ l : List String, dictGet f "statuses" = some (FilterValue.list l) →
      dictGet (normalizeFilters f).2 "statuses" = some (FilterValue.list l)) ∧
    (∀ s : String, dictGet f "statuses" = some (FilterValue.str s) →
      dictGet (normalizeFilters f).2 "statuses" = some (FilterValue.str s)) ∧
    (∀ v : FilterValue, dictGet f "path" = some v →
      dictGet (normalizeFilters f).2 "path" = some (FilterValue.str v.pyStr)) ∧
    (∀ v : FilterValue, dictGet f "types" = some v →
      dictGet (normalizeFilters f).2 "types" = some (FilterValue.str v.pyStr)) ∧
    (∀ k : String, k ∉ ["filenames", "item_names", "statuses", "path", "types"] →
      dictGet (normalizeFilters f).2 k = none) := by
  have halias_id : dictGet f "filenames" = none → aliasFilenames f = f := by
    intro h
    unfold aliasFilenames
    rw [h]
  refine ⟨?_, ?_, ?_, ?_, ?_, ?_, ?_⟩
  · intro l h0 h1
    rw [normalizeFilters_snd (isEmpty_false_of_get h1),
      buildPostFilters_item_names, halias_id h0, h1]
    rfl
  · intro s h0 h1
    rw [normalizeFilters_snd (isEmpty_false_of_get h1),
      buildPostFilters_item_names, halias_id h0, h1]
    rfl
  · intro l h
    rw [normalizeFilters_snd (isEmpty_false_of_get h),
      buildPostFilters_statuses, aliasFilenames_get_ne f (by decide), h]
    rfl
  · intro s h
    rw [normalizeFilters_snd (isEmpty_false_of_get h),
      buildPostFilters_statuses, aliasFilenames_get_ne f (by decide), h]
    rfl
  · intro v h
    rw [normalizeFilters_snd (isEmpty_false_of_get h),
      buildPostFilters_path, aliasFilenames_get_ne f (by decide), h]
    rfl
  · intro v h
    rw [normalizeFilters_snd (isEmpty_false_of_get h),
      buildPostFilters_types, aliasFilenames_get_ne f (by decide), h]
    rfl
  · intro k hk
    simp only [List.mem_cons, List.not_mem_nil, or_false, not_or] at hk
    obtain ⟨_, h1, h2, h3, h4⟩ := hk
    by_cases hf : f.isEmpty
    · simp [normalizeFilters, hf, dictGet]
    · rw [normalizeFilters_snd (by simpa using hf)]
      exact buildPostFilters_other _ h1 h2 h3 h4

/-- Concrete instance: a list-valued `statuses` passes through. -/
theorem post_filters_normalization_witness :
    dictGet (normalizeFilters [("statuses", FilterValue.list ["new", "done"])]).2
      "statuses" = some (FilterValue.list ["new", "done"]) :=
  (post_filters_normalization _).2.2.1 ["new", "done"] (by decide)

/-! ## Claim C5: the normalization mutates the caller's mapping -/

/-- C5 fails as stated: normalizing a mapping containing `filenames`
overwrites `item_names` in the caller's mapping. -/
theorem normalization_mutates_caller_mapping :
    (normalizeFilters
      [("filenames", FilterValue.str "a"), ("item_names", FilterValue.str "b")]).1
      ≠ [("filenames", FilterValue.str "a"), ("item_names", FilterValue.str "b")] := by
  decide

/-- C5 (amended): the caller's mapping is mutated exactly when
`filenames` is present — `item_names` is then set to the `filenames`
value in the caller's mapping; when `filenames` is absent the mapping
is left unchanged. (The normalized output itself is a pure function of
the inputs, as the embedding makes explicit.) -/
theorem normalization_mutation_exactly_on_filenames (f : Filters) :
    (dictGet f "filenames" = none → (normalizeFilters f).1 = f) ∧
    (∀ v : FilterValue, dictGet f "filenames" = some v →
      (normalizeFilters f).1 = dictSet f "item_names" v) := by
  constructor
  · intro h
    by_cases hf : f.isEmpty
    · simp [normalizeFilters, hf]
    · simp [normalizeFilters, hf, aliasFilenames, h]
  · intro v h
    have hne : f.isEmpty = false := isEmpty_false_of_get h
    simp [normalizeFilters, hne, aliasFilenames, h]

/-- Concrete instance of the mutation characterization. -/
theorem normalization_mutation_exactly_on_filenames_witness :
    (normalizeFilters [("filenames", FilterValue.str "a")]).1
      = dictSet [("filenames", FilterValue.str "a")] "item_names"
          (FilterValue.str "a") :=
  (normalization_mutation_exactly_on_filenames _).2 (FilterValue.str "a") (by decide)

/-! ## Claim C9: `workview_url_for_item` -/

/-- C9: `workview_url_for_item` returns exactly
`base_url + "/workview?dataset=<dataset_id>&item=<item_id>"`. -/
theorem workview_url_composition (ds : RemoteDatasetV2) (item : DatasetItem) :
    workview_url_for_item ds item
      = ds.base_url ++ "/workview?dataset=" ++ toString ds.dataset_id
        ++ "&item=" ++ toString item.id := by
  unfold workview_url_for_item urljoin
  simp [String.append_assoc]

/-! ## Claim C2: batch-command payload shapes -/

/-- C2: for every list of items, each of the five batch command kinds
dispatches exactly one request with the payload shape determined by
the kind — `archive`/`restore_archived` send
`{"filters": {"item_ids": ..., "dataset_ids": [dataset_id]}}` while
`move_to_new`/`reset`/`delete_items` send
`{"filter": {"dataset_item_ids": ...}}` — and the request depends on
the items only through their `id` values. -/
theorem batch_command_payload_shapes (ds : RemoteDatasetV2)
    (items : List DatasetItem) :
    archive ds items = [ApiRequest.archive_items (Json.obj
        [("filters", Json.obj
          [("item_ids", Json.arr (items.map (fun item => Json.num item.id))),
           ("dataset_ids", Json.arr [Json.num ds.dataset_id])])]) ds.team] ∧
    restore_archived ds items = [ApiRequest.restore_archived_items (Json.obj
        [("filters", Json.obj
          [("item_ids", Json.arr (items.map (fun item => Json.num item.id))),
           ("dataset_ids", Json.arr [Json.num ds.dataset_id])])]) ds.team] ∧
    move_to_new ds items = [ApiRequest.move_item_to_new ds.slug ds.team (Json.obj
        [("filter", Json.obj
          [("dataset_item_ids",
            Json.arr (items.map (fun item => Json.num item.id)))])])] ∧
    reset ds items = [ApiRequest.reset_item ds.slug ds.team (Json.obj
        [("filter", Json.obj
          [("dataset_item_ids",
            Json.arr (items.map (fun item => Json.num item.id)))])])] ∧
    delete_items ds items = [ApiRequest.delete_item ds.slug ds.team (Json.obj
        [("filter", Json.obj
          [("dataset_item_ids",
            Json.arr (items.map (fun item => Json.num item.id)))])])] ∧
    (∀ items₂ : List DatasetItem,
      items.map DatasetItem.id = items₂.map DatasetItem.id →
      archive ds items = archive ds items₂ ∧
      restore_archived ds items = restore_archived ds items₂ ∧
      move_to_new ds items = move_to_new ds items₂ ∧
      reset ds items = reset ds items₂ ∧
      delete_items ds items = delete_items ds items₂) := by
  refine ⟨rfl, rfl, rfl, rfl, rfl, ?_⟩
  intro items₂ h
  have hmap : items.map (fun item => Json.num item.id)
      = items₂.map (fun item => Json.num item.id) := by
    have h1 := congrArg (List.map Json.num) h
    simpa [List.map_map, Function.comp] using h1
  exact ⟨by simp [archive, hmap], by simp [restore_archived, hmap],
    by simp [move_to_new, hmap], by simp [reset, hmap],
    by simp [delete_items, hmap]⟩

/-- Concrete instance: three item IDs, `archive`'s documented shape. -/
theorem batch_command_payload_shapes_witness :
    archive ⟨"team", "ds", "ds-slug", 7, "https://darwin.v7labs.com"⟩
        [⟨1, "a", "new", "/"⟩, ⟨2, "b", "new", "/"⟩, ⟨3, "c", "new", "/"⟩]
      = [ApiRequest.archive_items (Json.obj
          [("filters", Json.obj
            [("item_ids", Json.arr [Json.num 1, Json.num 2, Json.num 3]),
             ("dataset_ids", Json.arr [Json.num 7])])]) "team"] :=
  (batch_command_payload_shapes
    ⟨"team", "ds", "ds-slug", 7, "https://darwin.v7labs.com"⟩
    [⟨1, "a", "new", "/"⟩, ⟨2, "b", "new", "/"⟩, ⟨3, "c", "new", "/"⟩]).1

/-! ## Claim C10: empty batch commands still dispatch -/

/-- C10: each of the five batch commands, called with an empty
collection of items, still issues exactly one request whose item-ID
list is empty — there is no client-side short-circuit. -/
theorem batch_commands_empty_items_single_request (ds : RemoteDatasetV2) :
    archive ds [] = [ApiRequest.archive_items (Json.obj
        [("filters", Json.obj
          [("item_ids", Json.arr []),
           ("dataset_ids", Json.arr [Json.num ds.dataset_id])])]) ds.team] ∧
    restore_archived ds [] = [ApiRequest.restore_archived_items (Json.obj
        [("filters", Json.obj
          [("item_ids", Json.arr []),
           ("dataset_ids", Json.arr [Json.num ds.dataset_id])])]) ds.team] ∧
    move_to_new ds [] = [ApiRequest.move_item_to_new ds.slug ds.team (Json.obj
        [("filter", Json.obj [("dataset_item_ids", Json.arr [])])])] ∧
    reset ds [] = [ApiRequest.reset_item ds.slug ds.team (Json.obj
        [("filter", Json.obj [("dataset_item_ids", Json.arr [])])])] ∧
    delete_items ds [] = [ApiRequest.delete_item ds.slug ds.team (Json.obj
        [("filter", Json.obj [("dataset_item_ids", Json.arr [])])])] :=
  ⟨rfl, rfl, rfl, rfl, rfl⟩

/-! ## Claim C6: `push` validation -/

/-- C6: `push` raises a `ValueError` before any upload request is
attempted, in exactly these cases: the file list is `None`; at least
one pre-built `LocalFile` is supplied together with a `path`, `fps`,
or `as_frames` option; or the expanded-and-filtered set of files to
upload is empty. -/
theorem push_validation (find_files : List PyPath → List PyPath → List PyPath)
    (files_to_upload : Option (List PushItem)) (blocking multi_threaded : Bool)
    (fps : Int) (as_frames : Bool) (files_to_exclude : Option (List PyPath))
    (path : Option String) (preserve_folders : Bool) :
    (push find_files files_to_upload blocking multi_threaded fps as_frames
        files_to_exclude path preserve_folders).isError = true ↔
      (files_to_upload = none ∨
       ∃ l, files_to_upload = some l ∧
         ((localFiles l ≠ [] ∧ (path ≠ none ∨ fps ≠ 0 ∨ as_frames = true)) ∨
          (localFiles l = [] ∧
            find_files (searchFiles l) (files_to_exclude.getD []) = []))) := by
  cases files_to_upload with
  | none => simp [push, PushOutcome.isError]
  | some l =>
    have hAiff : (!(localFiles l).isEmpty && (path.isSome || fps != 0 || as_frames))
          = true
        ↔ (localFiles l ≠ [] ∧ (path ≠ none ∨ fps ≠ 0 ∨ as_frames = true)) := by
      simp [Option.isSome_iff_ne_none, bne_iff_ne, List.isEmpty_iff,
        and_assoc, or_assoc]
    have hEiff : (buildUploadFiles (localFiles l) (searchFiles l)
          (find_files (searchFiles l) (files_to_exclude.getD [])) fps as_frames
          path preserve_folders).isEmpty = true
        ↔ (localFiles l = [] ∧
            find_files (searchFiles l) (files_to_exclude.getD []) = []) := by
      simp [buildUploadFiles, List.isEmpty_iff]
    by_cases hA : (!(localFiles l).isEmpty
        && (path.isSome || fps != 0 || as_frames)) = true
    · have hout : push find_files (some l) blocking multi_threaded fps as_frames
          files_to_exclude path preserve_folders
          = PushOutcome.error "Cannot specify a path when uploading a LocalFile object." := by
        simp [push, hA]
      rw [hout]
      simp only [PushOutcome.isError, true_iff]
      exact Or.inr ⟨l, rfl, Or.inl (hAiff.mp hA)⟩
    · by_cases hE : (buildUploadFiles (localFiles l) (searchFiles l)
          (find_files (searchFiles l) (files_to_exclude.getD [])) fps as_frames
          path preserve_folders).isEmpty = true
      · have hout : push find_files (some l) blocking multi_threaded fps as_frames
            files_to_exclude path preserve_folders
            = PushOutcome.error
                "No files to upload, check your path, exclusion filters and resume flag" := by
          simp [push, hA, hE]
        rw [hout]
        simp only [PushOutcome.isError, true_iff]
        exact Or.inr ⟨l, rfl, Or.inr (hEiff.mp hE)⟩
      · have hout : (push find_files (some l) blocking multi_threaded fps as_frames
            files_to_exclude path preserve_folders).isError = false := by
          by_cases hb : blocking <;>
            simp [push, hA, hE, hb, PushOutcome.isError]
        rw [hout]
        simp only [Bool.false_eq_true, false_iff]
        rintro (h | ⟨l', hl', hcase⟩)
        · exact absurd h (by simp)
        · cases Option.some.inj hl'
          rcases hcase with ⟨hne, hgen⟩ | ⟨hnil, hfound⟩
          · exact hA (hAiff.mpr ⟨hne, hgen⟩)
          · exact hE (hEiff.mpr ⟨hnil, hfound⟩)

/-- Concrete instance (the spec's test): a pre-built `LocalFile`
together with a non-null `path` option fails validation. -/
theorem push_validation_witness :
    (push (fun _ _ => []) (some [PushItem.localFile ⟨["f.png"], 0, false, none⟩])
        true true 0 false none (some "folder") false).isError = true :=
  (push_validation (fun _ _ => []) (some [PushItem.localFile ⟨["f.png"], 0, false, none⟩])
      true true 0 false none (some "folder") false).mpr
    (Or.inr ⟨_, rfl, Or.inl ⟨by decide, Or.inl (by decide)⟩⟩)

/-! ## Claim C7: `preserve_folders` destination paths -/

/-- C7 fails as stated: the assigned destination is the *parent
directory* of the file's path relative to the scan root, not the
relative path itself. -/
theorem preserve_folders_dest_is_parent_not_relative :
    destPath none true [["r"]] ["r", "a", "b.png"] = some "a" ∧
    some (pyPathStr (pyRelativeTo ["r", "a", "b.png"] ["r"])) = some "a/b.png" ∧
    destPath none true [["r"]] ["r", "a", "b.png"]
      ≠ some (pyPathStr (pyRelativeTo ["r", "a", "b.png"] ["r"])) := by
  decide

/-- C7 (amended): with `preserve_folders` enabled, every discovered
file's destination path is the parent directory of the file's path
relative to the first scan root (in the order the roots were supplied)
that the file is under, overriding the global `path` option for that
file only; the scan loop builds the file's `LocalFile` with exactly
that destination. -/
theorem preserve_folders_destination (search_files : List PyPath)
    (found_file : PyPath) (pre post : List PyPath) (r : PyPath)
    (path : Option String)
    (hsplit : search_files = pre ++ r :: post)
    (hr : is_relative_to found_file r = true)
    (hpre : ∀ r' ∈ pre, is_relative_to found_file r' = false) :
    destPath path true search_files found_file
      = some (pyPathStr (pyRelativeTo found_file r).dropLast) ∧
    (∀ (uploading : List LocalFile) (found : List PyPath) (fps : Int)
        (as_frames : Bool), found_file ∈ found →
      (⟨found_file, fps, as_frames,
        some (pyPathStr (pyRelativeTo found_file r).dropLast)⟩ : LocalFile)
        ∈ buildUploadFiles uploading search_files found fps as_frames path true) := by
  have hdest : destPath path true search_files found_file
      = some (pyPathStr (pyRelativeTo found_file r).dropLast) := by
    subst hsplit
    unfold destPath
    rw [if_pos rfl, List.filter_append]
    have hprenil : pre.filter (fun s => is_relative_to found_file s) = [] := by
      rw [List.filter_eq_nil_iff]
      intro r' hr'
      simp [hpre r' hr']
    rw [hprenil, List.filter_cons_of_pos (by simpa using hr), List.nil_append]
  refine ⟨hdest, ?_⟩
  intro uploading found fps as_frames hmem
  unfold buildUploadFiles
  refine List.mem_append_right _ ?_
  rw [← hdest]
  exact List.mem_map_of_mem _ hmem

/-- Concrete instance (the spec's test): with two distinct scan roots,
a file under the second root gets a destination relative to that root. -/
theorem preserve_folders_destination_witness :
    destPath none true [["r1"], ["r2"]] ["r2", "d", "f.png"]
      = some (pyPathStr (pyRelativeTo ["r2", "d", "f.png"] ["r2"]).dropLast) :=
  (preserve_folders_destination [["r1"], ["r2"]] ["r2", "d", "f.png"]
    [["r1"]] [] ["r2"] none rfl (by decide) (by decide)).1

/-! ## Claim C1: pagination -/

/-- One loop iteration when the response declares a next token. -/
theorem fetchLoop_cons_some {ι δ : Type} (parse : ι → δ) (pf ps cursor : Params)
    (p : Page ι) (rest : List (Page ι)) (tok : String) (htok : p.next = some tok) :
    fetchLoop parse pf ps cursor (p :: rest)
      = FetchEvent.request (dictMerge (dictMerge pf ps) cursor)
        :: FetchEvent.yieldItems (p.items.map parse)
        :: fetchLoop parse pf ps
            (dictSet (dictMerge (dictMerge pf ps) cursor) "page[from]"
              (PyVal.str tok)) rest := by
  simp only [fetchLoop, htok]

/-- One loop iteration when the response declares no next token: the
loop returns at once, whatever pages would remain. -/
theorem fetchLoop_cons_none {ι δ : Type} (parse : ι → δ) (pf ps cursor : Params)
    (p : Page ι) (rest : List (Page ι)) (htok : p.next = none) :
    fetchLoop parse pf ps cursor (p :: rest)
      = [FetchEvent.request (dictMerge (dictMerge pf ps) cursor),
         FetchEvent.yieldItems (p.items.map parse)] := by
  simp only [fetchLoop, htok]

theorem requestCount_request_cons {ι δ : Type} (ps : Params)
    (rest : List (FetchEvent ι δ)) :
    requestCount (FetchEvent.request ps :: rest) = requestCount rest + 1 := rfl

theorem requestCount_yield_cons {ι δ : Type} (its : List δ)
    (rest : List (FetchEvent ι δ)) :
    requestCount (FetchEvent.yieldItems its :: rest) = requestCount rest := rfl

theorem yieldedItems_request_cons {ι δ : Type} (ps : Params)
    (rest : List (FetchEvent ι δ)) :
    yieldedItems (FetchEvent.request ps :: rest) = yieldedItems rest := rfl

theorem yieldedItems_yield_cons {ι δ : Type} (its : List δ)
    (rest : List (FetchEvent ι δ)) :
    yieldedItems (FetchEvent.yieldItems its :: rest) = its ++ yieldedItems rest := rfl

/-- The pagination loop, run over a complete server run, produces the
canonical trace: for each page one request, then that page's items. -/
theorem fetchLoop_run {ι δ : Type} (parse : ι → δ) (pf ps : Params) :
    ∀ pages : List (Page ι), wellFormedRun pages = true →
      ∀ cursor : Params,
      (fetchLoop parse pf ps cursor pages).map eventTag
        = (pages.map (fun p => [none, some (p.items.map parse)])).flatten
      ∧ requestCount (fetchLoop parse pf ps cursor pages) = pages.length
      ∧ yieldedItems (fetchLoop parse pf ps cursor pages)
        = ((pages.map Page.items).flatten).map parse := by
  intro pages
  induction pages with
  | nil => intro h; simp [wellFormedRun] at h
  | cons p rest ih =>
    intro h cursor
    cases rest with
    | nil =>
      have hnone : p.next = none := by
        simpa [wellFormedRun, Option.isNone_iff_eq_none] using h
      rw [fetchLoop_cons_none parse pf ps cursor p [] hnone]
      simp [eventTag, requestCount, yieldedItems]
    | cons q rest' =>
      have hs : p.next.isSome = true ∧ wellFormedRun (q :: rest') = true := by
        simpa [wellFormedRun] using h
      obtain ⟨tok, htok⟩ := Option.isSome_iff_exists.mp hs.1
      have ih' := ih hs.2
        (dictSet (dictMerge (dictMerge pf ps) cursor) "page[from]" (PyVal.str tok))
      rw [fetchLoop_cons_some parse pf ps cursor p (q :: rest') tok htok]
      refine ⟨?_, ?_, ?_⟩
      · simp only [List.map_cons, eventTag]
        rw [ih'.1]
        simp
      · simp only [requestCount_request_cons, requestCount_yield_cons]
        rw [ih'.2.1]
        simp
      · simp only [yieldedItems_request_cons, yieldedItems_yield_cons]
        rw [ih'.2.2]
        simp

/-- C1: for every complete server run (last page with no next token,
every earlier page with one), `fetch_remote_files` yields exactly the
concatenation of the pages' parsed items in server order, issues
exactly one listing request per page, interleaves them so that page
N's items are yielded before the request for page N+1, and the loop
returns immediately after any response with a null next token. -/
theorem fetch_remote_files_pagination {ι δ : Type} (filters : Filters)
    (sortSpec : Option (String × String)) (parse : ι → δ)
    (pages : List (Page ι)) (hwf : wellFormedRun pages = true) :
    (fetch_remote_files filters sortSpec parse pages).map eventTag
      = (pages.map (fun p => [none, some (p.items.map parse)])).flatten
    ∧ requestCount (fetch_remote_files filters sortSpec parse pages) = pages.length
    ∧ yieldedItems (fetch_remote_files filters sortSpec parse pages)
      = ((pages.map Page.items).flatten).map parse
    ∧ (∀ (pf ps cursor : Params) (its : List ι) (rest : List (Page ι)),
        fetchLoop parse pf ps cursor ({ items := its, next := none } :: rest)
          = [FetchEvent.request (dictMerge (dictMerge pf ps) cursor),
             FetchEvent.yieldItems (its.map parse)]) := by
  have h := fetchLoop_run parse (postFilterParams filters) (sortParams sortSpec)
    pages hwf [("page[size]", PyVal.int 500)]
  exact ⟨h.1, h.2.1, h.2.2,
    fun pf ps cursor its rest =>
      fetchLoop_cons_none parse pf ps cursor { items := its, next := none } rest rfl⟩

/-- Concrete instance: a 3-page run yields all items in order with
exactly 3 requests; a run whose single page is empty with a null next
token yields nothing with exactly 1 request. -/
theorem fetch_remote_files_pagination_witness :
    wellFormedRun ([⟨[0, 1], some "t1"⟩, ⟨[2], some "t2"⟩, ⟨[3, 4], none⟩] :
        List (Page Nat)) = true ∧
    yieldedItems (fetch_remote_files [] none (fun n : Nat => n)
        [⟨[0, 1], some "t1"⟩, ⟨[2], some "t2"⟩, ⟨[3, 4], none⟩])
      = (([⟨[0, 1], some "t1"⟩, ⟨[2], some "t2"⟩, ⟨[3, 4], none⟩] :
          List (Page Nat)).map Page.items).flatten.map (fun n : Nat => n) ∧
    requestCount (fetch_remote_files [] none (fun n : Nat => n)
        [⟨[0, 1], some "t1"⟩, ⟨[2], some "t2"⟩, ⟨[3, 4], none⟩]) = 3 ∧
    yieldedItems (fetch_remote_files [] none (fun n : Nat => n)
        [(⟨[], none⟩ : Page Nat)]) = [] ∧
    requestCount (fetch_remote_files [] none (fun n : Nat => n)
        [(⟨[], none⟩ : Page Nat)]) = 1 :=
  ⟨by decide,
   (fetch_remote_files_pagination [] none (fun n : Nat => n)
     [⟨[0, 1], some "t1"⟩, ⟨[2], some "t2"⟩, ⟨[3, 4], none⟩] (by decide)).2.2.1,
   (fetch_remote_files_pagination [] none (fun n : Nat => n)
     [⟨[0, 1], some "t1"⟩, ⟨[2], some "t2"⟩, ⟨[3, 4], none⟩] (by decide)).2.1,
   by decide,
   (fetch_remote_files_pagination [] none (fun n : Nat => n)
     [(⟨[], none⟩ : Page Nat)] (by decide)).2.1⟩

/-! ## Claim C8: constant page size -/

/-- The loop invariant: if the cursor carries `page[size] = 500`, every
request the loop issues carries it too (the merge lets the cursor's
binding win, and only `page[from]` is ever reassigned). -/
theorem fetchLoop_page_size {ι δ : Type} (parse : ι → δ) (pf ps : Params) :
    ∀ (pages : List (Page ι)) (cursor : Params),
      dictGet cursor "page[size]" = some (PyVal.int 500) →
      ∀ e ∈ fetchLoop parse pf ps cursor pages,
        ∀ params : Params, e = FetchEvent.request params →
          dictGet params "page[size]" = some (PyVal.int 500) := by
  intro pages
  induction pages with
  | nil => intro cursor hc e he; simp [fetchLoop] at he
  | cons p rest ih =>
    intro cursor hc e he params hreq
    have hc' : dictGet (dictMerge (dictMerge pf ps) cursor) "page[size]"
        = some (PyVal.int 500) := dictGet_merge_of_some hc _
    simp only [fetchLoop] at he
    rcases List.mem_cons.mp he with rfl | he'
    · cases FetchEvent.request.inj hreq
      exact hc'
    · rcases List.mem_cons.mp he' with rfl | he''
      · exact absurd hreq (by simp)
      · cases htok : p.next with
        | none => rw [htok] at he''; simp at he''
        | some tok =>
          rw [htok] at he''
          refine ih _ ?_ e he'' params hreq
          rw [dictGet_set_ne _ _ (by decide)]
          exact hc'

/-- C8: within a single run of `fetch_remote_files`, every listing
request carries `page[size] = 500`, the same for the first and every
subsequent request. -/
theorem fetch_page_size_constant {ι δ : Type} (filters : Filters)
    (sortSpec : Option (String × String)) (parse : ι → δ)
    (pages : List (Page ι)) :
    ∀ e ∈ fetch_remote_files filters sortSpec parse pages,
      ∀ params : Params, e = FetchEvent.request params →
        dictGet params "page[size]" = some (PyVal.int 500) := by
  intro e he params hreq
  exact fetchLoop_page_size parse (postFilterParams filters) (sortParams sortSpec)
    pages [("page[size]", PyVal.int 500)] (by decide) e he params hreq

/-- Concrete instance: the request issued by a one-page run carries
`page[size] = 500`. -/
theorem fetch_page_size_constant_witness :
    dictGet [("page[size]", PyVal.int 500)] "page[size]" = some (PyVal.int 500) :=
  fetch_page_size_constant ([] : Filters) none (fun n : Nat => n)
    [(⟨[], none⟩ : Page Nat)] (FetchEvent.request [("page[size]", PyVal.int 500)])
    (by decide) [("page[size]", PyVal.int 500)] rfl

end Darwin
